import Mathlib

/-!
Verification development for the SbefBOTV2 chatbot front-end.

The definitions below are a shallow embedding of the repository code:
the transport client (generateImage, sendMessageToGemini and its request
construction), the intent classifier (isImageGenerationRequest), the
project library operations (saveProject, loadProject, deleteProject) and
the view-state machine (handlePreview, the reachable-state relation).

JavaScript strings are modelled as Lean strings; the default (non-locale)
Unicode case conversions toLowerCase and toUpperCase are modelled
character-wise over the code-point repertoire the application actually
uses (ASCII, the Azerbaijani and Turkish Latin letters of the keyword
lists, the basic Cyrillic block, the sharp s). String.includes is
modelled as substring containment, String.trim as stripping the common
JavaScript whitespace code points from both ends.
-/

/-- Model of the default Unicode lowercase mapping used by the JavaScript
String.prototype.toLowerCase, restricted to the code points relevant to
this application. The dotted capital I maps to the two code points
i followed by combining dot above, as in JavaScript. -/
def jsCharLower (c : Char) : List Char :=
  if 'A' ≤ c ∧ c ≤ 'Z' then [Char.ofNat (c.toNat + 32)]
  else if c = 'Ç' then ['ç']
  else if c = 'Ə' then ['ə']
  else if c = 'Ğ' then ['ğ']
  else if c = 'İ' then ['i', Char.ofNat 0x0307]
  else if c = 'Ö' then ['ö']
  else if c = 'Ş' then ['ş']
  else if c = 'Ü' then ['ü']
  else if c = 'Ё' then ['ё']
  else if 'А' ≤ c ∧ c ≤ 'Я' then [Char.ofNat (c.toNat + 0x20)]
  else [c]

/-- Model of the default Unicode uppercase mapping used by the JavaScript
String.prototype.toUpperCase, restricted to the code points relevant to
this application. The dotless i maps to the plain capital I and the sharp
s maps to SS, as in JavaScript. -/
def jsCharUpper (c : Char) : List Char :=
  if 'a' ≤ c ∧ c ≤ 'z' then [Char.ofNat (c.toNat - 32)]
  else if c = 'ç' then ['Ç']
  else if c = 'ə' then ['Ə']
  else if c = 'ğ' then ['Ğ']
  else if c = 'ı' then ['I']
  else if c = 'ö' then ['Ö']
  else if c = 'ş' then ['Ş']
  else if c = 'ü' then ['Ü']
  else if c = 'ß' then ['S', 'S']
  else if c = 'ё' then ['Ё']
  else if 'а' ≤ c ∧ c ≤ 'я' then [Char.ofNat (c.toNat - 0x20)]
  else [c]

/-- Model of JavaScript text.toLowerCase(). -/
def jsToLower (s : String) : String :=
  ⟨s.data.flatMap jsCharLower⟩

/-- Model of JavaScript text.toUpperCase(). -/
def jsToUpper (s : String) : String :=
  ⟨s.data.flatMap jsCharUpper⟩

/-- Model of JavaScript s.includes(pat): pat occurs as a contiguous
substring of s. -/
def strContains (s pat : String) : Bool :=
  s.data.tails.any (fun t => pat.data.isPrefixOf t)

/-- The whitespace code points stripped by JavaScript String.prototype.trim
(space, tab, line feed, carriage return, vertical tab, form feed,
no-break space, byte order mark). -/
def jsIsWhitespace (c : Char) : Bool :=
  c == ' ' || c == '\t' || c == '\n' || c == '\r' ||
  c.toNat == 0x0b || c.toNat == 0x0c || c.toNat == 0xa0 || c.toNat == 0xfeff

/-- Model of JavaScript s.trim(). -/
def jsTrim (s : String) : String :=
  ⟨((s.data.dropWhile jsIsWhitespace).reverse.dropWhile jsIsWhitespace).reverse⟩

/-- The Sender enum of src/types.ts: USER is the string user, BOT is the
string model. -/
inductive Sender where
  | user
  | bot
deriving DecidableEq, Repr

/-- The Message record of src/types.ts. The timestamp Date is modelled as
a natural number; the optional attachment is a base64 string. -/
structure Message where
  id : String
  sender : Sender
  text : String
  timestamp : Nat
  isError : Bool := false
  attachment : Option String := none
deriving DecidableEq, Repr

/-- A request part as built by sendMessageToGemini: either inline data
(mime type and base64 payload) or plain text. -/
inductive ReqPart where
  | inlineData (mimeType : String) (data : String)
  | text (s : String)
deriving DecidableEq, Repr

/-- A role-tagged content turn of the generative-text request. -/
structure Content where
  role : String
  parts : List ReqPart
deriving DecidableEq, Repr

/-- The Project record of src/types.ts. The createdAt Date is modelled as
a natural number; the optional thumbnail is omitted because no code path
ever sets it. -/
structure Project where
  id : String
  name : String
  code : String
  createdAt : Nat
deriving DecidableEq, Repr

/-- Mapping of one history entry to a content turn, as in the
history.map callback of sendMessageToGemini: an attachment becomes an
inline jpeg part; a text part is added when the text is non-empty or
there is no attachment, carrying the text or a single space when the text
is empty. -/
def msgToContent (msg : Message) : Content :=
  let parts0 : List ReqPart :=
    match msg.attachment with
    | some a => [ReqPart.inlineData "image/jpeg" a]
    | none => []
  let parts1 : List ReqPart :=
    if msg.text ≠ "" ∨ msg.attachment = none then
      parts0 ++ [ReqPart.text (if msg.text = "" then " " else msg.text)]
    else parts0
  { role := match msg.sender with | .user => "user" | .bot => "model"
    parts := parts1 }

/-- The final user turn of the request, as built by sendMessageToGemini
from currentMessage and the optional imageBase64. -/
def currentContent (currentMessage : String) (imageBase64 : Option String) :
    Content :=
  { role := "user"
    parts :=
      (match imageBase64 with
       | some b => [ReqPart.inlineData "image/jpeg" b]
       | none => []) ++ [ReqPart.text currentMessage] }

/-- The full contents list sent by sendMessageToGemini: the mapped
history followed by the final user turn. -/
def buildContents (history : List Message) (currentMessage : String)
    (imageBase64 : Option String) : List Content :=
  history.map msgToContent ++ [currentContent currentMessage imageBase64]

/-- Model of sendMessageToGemini. The network call is an oracle from the
contents list to either a transport error or an optional response text
(absent models a null or undefined response.text). A transport failure is
replaced by the fixed connection-lost message; an absent or empty
response text is replaced by the fixed response-blocked notice. -/
def sendMessageToGemini (history : List Message) (currentMessage : String)
    (imageBase64 : Option String)
    (api : List Content → Except String (Option String)) :
    Except String String :=
  match api (buildContents history currentMessage imageBase64) with
  | .error _ => .error "Sistem xətası: SbefBOTV2 əlaqəni itirdi."
  | .ok t =>
    match t with
    | none => .ok "Bağışlayın, təhlükəsizlik protokolu cavabı blokladı."
    | some txt =>
      if txt = "" then .ok "Bağışlayın, təhlükəsizlik protokolu cavabı blokladı."
      else .ok txt

/-- Model of generateImage. The network call is an oracle from the prompt
to either a transport error or the list of generated image byte strings
(an absent generatedImages field is the empty list). The inner throw on
an empty result is caught by the same catch block as a transport failure,
so both are replaced by the fixed busy message. -/
def generateImage (prompt : String)
    (api : String → Except String (List String)) : Except String String :=
  match api prompt with
  | .error _ => .error "Şəkil serveri məşğuldur. Bir az sonra yoxlayın."
  | .ok imgs =>
    match imgs with
    | [] => .error "Şəkil serveri məşğuldur. Bir az sonra yoxlayın."
    | b :: _ => .ok b

/-- The fixed action-verb keyword list of isImageGenerationRequest in
src/App.tsx. -/
def keywords : List String :=
  ["yarat", "çək", "hazırla", "çiz", "oluştur", "tasarla", "draw",
   "generate", "create", "paint", "нарисуй", "создай"]

/-- The fixed subject-noun list of isImageGenerationRequest in
src/App.tsx. -/
def subjects : List String :=
  ["şəkil", "foto", "təsvir", "mənzərə", "resim", "görüntü", "fotoğraf",
   "image", "picture", "photo", "картинку", "изображение"]

/-- The intent classifier of src/App.tsx: lower-case the input, then
require at least one keyword and at least one subject to occur as a
substring. -/
def isImageGenerationRequest (text : String) : Bool :=
  let lowerText := jsToLower text
  keywords.any (fun k => strContains lowerText k) &&
  subjects.any (fun s => strContains lowerText s)

/-- The dispatch condition of handleSendMessage: the image path is taken
exactly when the classifier fires and no attachment is pending. -/
def imagePathTaken (textToSend : String) (currentAttachment : Option String) :
    Bool :=
  isImageGenerationRequest textToSend && currentAttachment.isNone

/-- The user message record handleSendMessage creates for a submission. -/
def newUserMessage (nowId : String) (textToSend : String) (ts : Nat)
    (currentAttachment : Option String) : Message :=
  { id := nowId
    sender := .user
    text := textToSend
    timestamp := ts
    attachment := currentAttachment }

/-- The contents list the text path of handleSendMessage causes
sendMessageToGemini to serialize: the history argument is the previous
messages with the new user message appended, and the currentMessage
argument is the same submitted text again. -/
def handleSendTextPathRequest (messages : List Message) (textToSend : String)
    (currentAttachment : Option String) (nowId : String) (ts : Nat) :
    List Content :=
  buildContents (messages ++ [newUserMessage nowId textToSend ts currentAttachment])
    textToSend currentAttachment

/-- The View tag of src/App.tsx (the language-select screen is rendered
before this state machine starts and is never returned to). -/
inductive View where
  | chat
  | projects
  | preview
deriving DecidableEq, Repr

/-- The slice of the App component state that the navigation and project
library operations read and write. -/
structure AppState where
  currentView : View
  projects : List Project
  previewCode : String
  projectNameInput : String
  showSaveDialog : Bool
deriving DecidableEq, Repr

/-- The initial values of the App state hooks: chat view, no projects,
empty preview code, empty name input, save dialog closed. -/
def initState : AppState :=
  { currentView := .chat
    projects := []
    previewCode := ""
    projectNameInput := ""
    showSaveDialog := false }

/-- Model of handlePreview: store the extracted code and switch to the
preview view. -/
def handlePreview (code : String) (st : AppState) : AppState :=
  { st with previewCode := code, currentView := .preview }

/-- Model of saveProject: a name whose trim is empty is rejected up
front; otherwise a new Project carrying the untrimmed name input and the
current preview code is prepended to the library, the save dialog is
closed and the name input is cleared. The Date.now() identifier and the
createdAt date are inputs of the model. -/
def saveProject (nowId : String) (ts : Nat) (st : AppState) : AppState :=
  if jsTrim st.projectNameInput = "" then st
  else
    { st with
      projects :=
        { id := nowId
          name := st.projectNameInput
          code := st.previewCode
          createdAt := ts } :: st.projects
      showSaveDialog := false
      projectNameInput := "" }

/-- Model of loadProject: re-enter the preview view with the stored
code. -/
def loadProject (p : Project) (st : AppState) : AppState :=
  { st with previewCode := p.code, currentView := .preview }

/-- Model of deleteProject: remove the projects whose id matches. -/
def deleteProject (pid : String) (st : AppState) : AppState :=
  { st with projects := st.projects.filter (fun p => p.id != pid) }

/-- One user-interface operation, with the guards the rendered UI
enforces: the live-preview button exists only for a non-empty extracted
HTML payload (an empty htmlCode is falsy, so the button is not
rendered); opening a project requires it to be in the library; the save
dialog and its save button are rendered only in the preview view; the
projects header button is hidden in the preview view. -/
inductive UIStep : AppState → AppState → Prop where
  | previewClick {st : AppState} (html : String) (hh : html ≠ "") :
      UIStep st (handlePreview html st)
  | openProject {st : AppState} (p : Project) (hp : p ∈ st.projects) :
      UIStep st (loadProject p st)
  | save {st : AppState} (nowId : String) (ts : Nat)
      (hv : st.currentView = View.preview) : UIStep st (saveProject nowId ts st)
  | del {st : AppState} (pid : String) : UIStep st (deleteProject pid st)
  | gotoChat {st : AppState} : UIStep st { st with currentView := View.chat }
  | gotoProjects {st : AppState} (hv : st.currentView ≠ View.preview) :
      UIStep st { st with currentView := View.projects }
  | editName {st : AppState} (x : String) :
      UIStep st { st with projectNameInput := x }
  | openSaveDialog {st : AppState} (hv : st.currentView = View.preview) :
      UIStep st { st with showSaveDialog := true }
  | closeSaveDialog {st : AppState} :
      UIStep st { st with showSaveDialog := false }

/-- States reachable from the initial state by UI operations. -/
def Reachable (st : AppState) : Prop :=
  Relation.ReflTransGen UIStep initState st

/-- The preview invariant: the preview view always carries a non-empty
payload, and every saved project stores non-empty code. -/
def PreviewInv (st : AppState) : Prop :=
  (st.currentView = View.preview → st.previewCode ≠ "") ∧
  ∀ p ∈ st.projects, p.code ≠ ""

theorem previewInv_init : PreviewInv initState := by
  constructor
  · intro h
    simp [initState] at h
  · intro p hp
    simp [initState] at hp

theorem previewInv_step {st st' : AppState} (hinv : PreviewInv st)
    (hstep : UIStep st st') : PreviewInv st' := by
  obtain ⟨hview, hproj⟩ := hinv
  cases hstep with
  | previewClick html hh =>
    exact ⟨fun _ => hh, hproj⟩
  | openProject p hp =>
    exact ⟨fun _ => hproj p hp, hproj⟩
  | save nowId ts hv =>
    unfold saveProject
    by_cases htrim : jsTrim st.projectNameInput = ""
    · simp only [htrim, if_pos]
      exact ⟨hview, hproj⟩
    · simp only [htrim, if_neg, ite_false]
      refine ⟨hview, ?_⟩
      intro p hp
      rcases List.mem_cons.mp hp with h1 | h2
      · subst h1
        exact hview hv
      · exact hproj p h2
  | del pid =>
    refine ⟨hview, ?_⟩
    intro p hp
    exact hproj p (List.mem_of_mem_filter hp)
  | gotoChat =>
    refine ⟨?_, hproj⟩
    intro h
    simp at h
  | gotoProjects hv =>
    refine ⟨?_, hproj⟩
    intro h
    simp at h
  | editName x =>
    exact ⟨hview, hproj⟩
  | openSaveDialog hv =>
    exact ⟨hview, hproj⟩
  | closeSaveDialog =>
    exact ⟨hview, hproj⟩

/-- C1: for every history H, new message M and optional image, the
contents list built by sendMessageToGemini has length |H| + 1, its first
|H| turns are the entries of H in original order mapped by msgToContent,
each history turn carries role user when the sender is user and role
model when the sender is bot, and the final turn is a user-role turn
whose parts contain the text M. -/
theorem contents_history_then_current (H : List Message) (M : String)
    (img : Option String) :
    (buildContents H M img).length = H.length + 1 ∧
    (buildContents H M img).take H.length = H.map msgToContent ∧
    (∀ m ∈ H,
      (m.sender = Sender.user → (msgToContent m).role = "user") ∧
      (m.sender = Sender.bot → (msgToContent m).role = "model")) ∧
    (buildContents H M img).getLast? = some (currentContent M img) ∧
    (currentContent M img).role = "user" ∧
    ReqPart.text M ∈ (currentContent M img).parts := by
  refine ⟨?_, ?_, ?_, ?_, rfl, ?_⟩
  · simp [buildContents]
  · rw [buildContents, ← List.length_map H msgToContent]
    exact List.take_left _ _
  · intro m _
    constructor <;> intro hs <;> simp [msgToContent, hs]
  · simp [buildContents]
  · simp [currentContent]

theorem contents_history_then_current_witness :
    (buildContents [⟨"w", Sender.bot, "salam", 0, false, none⟩]
      "necəsən" none).length = 2 :=
  (contents_history_then_current [⟨"w", Sender.bot, "salam", 0, false, none⟩]
    "necəsən" none).1

/-- C2: on the text path, handleSendMessage appends the new user message
to the history argument and passes the same submitted text again as the
currentMessage argument, so for a non-empty submission the serialized
request ends with two consecutive user-role turns both containing the
submitted text. -/
theorem duplicate_user_turns (messages : List Message) (textToSend : String)
    (att : Option String) (nowId : String) (ts : Nat) (h : textToSend ≠ "") :
    ∃ pre t1 t2,
      handleSendTextPathRequest messages textToSend att nowId ts =
        pre ++ [t1, t2] ∧
      t1.role = "user" ∧ t2.role = "user" ∧
      ReqPart.text textToSend ∈ t1.parts ∧
      ReqPart.text textToSend ∈ t2.parts := by
  refine ⟨messages.map msgToContent,
    msgToContent (newUserMessage nowId textToSend ts att),
    currentContent textToSend att, ?_, ?_, rfl, ?_, ?_⟩
  · simp [handleSendTextPathRequest, buildContents]
  · simp [msgToContent, newUserMessage]
  · simp [msgToContent, newUserMessage, h]
  · simp [currentContent]

theorem duplicate_user_turns_witness :
    ∃ pre t1 t2,
      handleSendTextPathRequest [] "salam" none "1" 0 = pre ++ [t1, t2] ∧
      t1.role = "user" ∧ t2.role = "user" ∧
      ReqPart.text "salam" ∈ t1.parts ∧
      ReqPart.text "salam" ∈ t2.parts :=
  duplicate_user_turns [] "salam" none "1" 0 (by decide)

/-- C3: the classifier returns true exactly when the lower-cased input
contains at least one keyword of the fixed action-verb list and at least
one keyword of the fixed subject-noun list. -/
theorem classifier_iff_keyword_and_subject (text : String) :
    isImageGenerationRequest text = true ↔
      ((∃ k ∈ keywords, strContains (jsToLower text) k = true) ∧
       (∃ s ∈ subjects, strContains (jsToLower text) s = true)) := by
  simp [isImageGenerationRequest, List.any_eq_true]

/-- C4 counterexample: the classifier is not invariant under upper-casing
the input. The keyword hazırla contains the dotless ı, which upper-cases
to the plain capital I and then lower-cases to the dotted i, so the
upper-cased input no longer contains the keyword. -/
theorem classifier_upper_cex :
    ¬ (isImageGenerationRequest "şəkil hazırla" =
       isImageGenerationRequest (jsToUpper "şəkil hazırla")) := by decide

/-- C4 amended: upper-casing the input preserves the classifier result
for every string whose lower case is unchanged by the upper-casing round
trip (in particular any input without case-unstable letters such as the
dotless ı). -/
theorem classifier_upper_invariant_of_roundtrip (s : String)
    (h : jsToLower (jsToUpper s) = jsToLower s) :
    isImageGenerationRequest (jsToUpper s) = isImageGenerationRequest s := by
  simp [isImageGenerationRequest, h]

theorem classifier_upper_invariant_witness :
    isImageGenerationRequest (jsToUpper "generate a picture") =
      isImageGenerationRequest "generate a picture" :=
  classifier_upper_invariant_of_roundtrip "generate a picture" (by decide)

/-- C5 counterexample: the classifier returns false on the input
mənə Bakının şəklini çək, because the declined form şəklini does not
contain the subject keyword şəkil as a contiguous substring. -/
theorem baku_picture_request_cex :
    ¬ (isImageGenerationRequest "mənə Bakının şəklini çək" = true) := by decide

/-- C5 amended: for the input mənə Bakının şəklini çək the classifier
returns false, so handleSendMessage takes the text path rather than the
image-generation path. -/
theorem baku_picture_request_text_path :
    isImageGenerationRequest "mənə Bakının şəklini çək" = false ∧
    imagePathTaken "mənə Bakının şəklini çək" none = false := by decide

/-- C6: saving with a name input whose trim is empty leaves the projects
list unchanged. -/
theorem save_empty_name_noop (nowId : String) (ts : Nat) (st : AppState)
    (h : jsTrim st.projectNameInput = "") :
    (saveProject nowId ts st).projects = st.projects := by
  simp [saveProject, h]

theorem save_empty_name_noop_witness :
    (saveProject "1" 0
      { currentView := View.preview
        projects := []
        previewCode := "<html></html>"
        projectNameInput := "  "
        showSaveDialog := true }).projects = [] :=
  save_empty_name_noop "1" 0 _ (by decide)

/-- C7: saving with a name whose trim is non-empty prepends exactly one
new Project, carrying that name and the current preview code, to the
unchanged previous list. -/
theorem save_nonempty_name_prepends (nowId : String) (ts : Nat)
    (st : AppState) (h : jsTrim st.projectNameInput ≠ "") :
    (saveProject nowId ts st).projects =
      { id := nowId
        name := st.projectNameInput
        code := st.previewCode
        createdAt := ts } :: st.projects := by
  simp [saveProject, h]

theorem save_nonempty_name_prepends_witness :
    (saveProject "1" 7
      { currentView := View.preview
        projects := []
        previewCode := "<html></html>"
        projectNameInput := "My Site"
        showSaveDialog := true }).projects =
      [{ id := "1", name := "My Site", code := "<html></html>",
         createdAt := 7 }] :=
  save_nonempty_name_prepends "1" 7 _ (by decide)

/-- C8: when the underlying API call fails, generateImage raises exactly
the fixed busy message and sendMessageToGemini raises exactly the fixed
connection-lost message; the raw transport error never reaches the
caller. -/
theorem transport_failures_mapped (prompt : String)
    (imgApi : String → Except String (List String)) (H : List Message)
    (M : String) (img : Option String)
    (api : List Content → Except String (Option String)) (e₁ e₂ : String)
    (h1 : imgApi prompt = .error e₁)
    (h2 : api (buildContents H M img) = .error e₂) :
    generateImage prompt imgApi =
      .error "Şəkil serveri məşğuldur. Bir az sonra yoxlayın." ∧
    sendMessageToGemini H M img api =
      .error "Sistem xətası: SbefBOTV2 əlaqəni itirdi." := by
  constructor
  · simp [generateImage, h1]
  · simp [sendMessageToGemini, h2]

theorem transport_failures_mapped_witness :
    generateImage "p" (fun _ => Except.error "boom") =
      Except.error "Şəkil serveri məşğuldur. Bir az sonra yoxlayın." ∧
    sendMessageToGemini [] "m" none (fun _ => Except.error "down") =
      Except.error "Sistem xətası: SbefBOTV2 əlaqəni itirdi." :=
  transport_failures_mapped "p" _ [] "m" none _ "boom" "down" rfl rfl

/-- C9: when the API response text is absent or empty, sendMessageToGemini
returns normally with the fixed response-blocked notice. -/
theorem blocked_response_notice (H : List Message) (M : String)
    (img : Option String)
    (api : List Content → Except String (Option String))
    (h : api (buildContents H M img) = .ok none ∨
         api (buildContents H M img) = .ok (some "")) :
    sendMessageToGemini H M img api =
      .ok "Bağışlayın, təhlükəsizlik protokolu cavabı blokladı." := by
  rcases h with h | h <;> simp [sendMessageToGemini, h]

theorem blocked_response_notice_witness :
    sendMessageToGemini [] "m" none (fun _ => Except.ok none) =
      Except.ok "Bağışlayın, təhlükəsizlik protokolu cavabı blokladı." :=
  blocked_response_notice [] "m" none _ (Or.inl rfl)

theorem reachable_previewInv (st : AppState) (h : Reachable st) :
    PreviewInv st := by
  induction h with
  | refl => exact previewInv_init
  | tail _ hstep ih => exact previewInv_step ih hstep

/-- C10: in every state reachable from the initial state by the UI
operations, the preview view carries a non-empty HTML payload. -/
theorem preview_view_nonempty_payload (st : AppState) (h : Reachable st)
    (hv : st.currentView = View.preview) : st.previewCode ≠ "" :=
  (reachable_previewInv st h).1 hv

theorem preview_view_nonempty_payload_witness :
    (handlePreview "<html></html>" initState).previewCode ≠ "" :=
  preview_view_nonempty_payload (handlePreview "<html></html>" initState)
    (Relation.ReflTransGen.single (UIStep.previewClick "<html></html>" (by decide)))
    rfl
